import Mathlib

/-!
Shallow embedding of the universal-terminal shell-dialect translator
(`src/custard.c`, the full-mapping variant; `src/cust.c` and
`src/unnamed/part_000` are reduced variants of the same program).

Strings are modelled as Lean `String` (lists of characters); the C
fixed-size buffers (`MAX_LINE`, `MAX_TOK`) and `strncpy` truncation are
not modelled, which is faithful for all inputs shorter than the buffer
sizes.  Machine-integer overflow in `atoi`/`sscanf` is likewise not
modelled (`Int` is used); the claims only involve small indices.
-/

namespace Custard

/-- Capacity of the history ring buffer (`MAX_HISTORY` in the source). -/
def MAX_HISTORY : Nat := 1000

/-- C `isspace` on the ASCII characters the program can receive. -/
def isspace (c : Char) : Bool :=
  c = ' ' || c = '\t' || c = '\n' || c = '\x0b' || c = '\x0c' || c = '\r'

/-- C `isdigit`. -/
def isdigit (c : Char) : Bool :=
  c = '0' || c = '1' || c = '2' || c = '3' || c = '4' || c = '5'
    || c = '6' || c = '7' || c = '8' || c = '9'

/-- C `tolower` on ASCII. -/
def tolower (c : Char) : Char :=
  if 'A' ≤ c && c ≤ 'Z' then Char.ofNat (c.toNat + 32) else c

/-- `trim` from the source: strip leading and trailing `isspace` characters. -/
def trimL (s : List Char) : List Char :=
  ((s.dropWhile isspace).reverse.dropWhile isspace).reverse

/-- String-level `trim`. -/
def trim (s : String) : String := ⟨trimL s.data⟩

/-- `lc_copy` from the source: lowercase copy of a string. -/
def lc_copy (s : String) : String := ⟨s.data.map tolower⟩

/-- Is `pat` a prefix of `s`? (Boolean, used to model `strstr`/`strncmp`.) -/
def pfx : List Char → List Char → Bool
  | [], _ => true
  | _ :: _, [] => false
  | a :: as, b :: bs => a = b && pfx as bs

/-- `strstr(s, pat) != NULL`: does `s` contain `pat` as a substring?
`strstr` with an empty needle matches at position 0. -/
def has_substr (s pat : List Char) : Bool :=
  match s with
  | [] => pfx pat []
  | c :: t => pfx pat (c :: t) || has_substr t pat

/-- The suffix of `s` after the first occurrence of `pat`
(models `strstr(s, pat) + strlen(pat)`); `none` when `strstr` returns NULL. -/
def after_substr (s pat : List Char) : Option (List Char) :=
  match s with
  | [] => if pfx pat [] then some [] else none
  | c :: t =>
    if pfx pat (c :: t) then some ((c :: t).drop pat.length)
    else after_substr t pat

/-- `replace_first` from the source: replace the first occurrence of `old`
by `new`; the string is returned unchanged when `old` does not occur. -/
def replace_firstL (s old new : List Char) : List Char :=
  match s with
  | [] => if pfx old [] then new else []
  | c :: t =>
    if pfx old (c :: t) then new ++ (c :: t).drop old.length
    else c :: replace_firstL t old new

/-- String-level `replace_first`. -/
def replace_first (s old new : String) : String :=
  ⟨replace_firstL s.data old.data new.data⟩

/-- String-level substring test (`strstr(s, pat) != NULL`). -/
def contains_sub (s pat : String) : Bool := has_substr s.data pat.data

/-- String-level prefix test (`strncmp(s, pat, strlen(pat)) == 0`). -/
def sstarts_with (s pat : String) : Bool := pfx pat.data s.data

/-- `split_first` from the source: skip leading whitespace; the first token
is either a quoted span (quotes stripped; an unterminated quote runs to the
end) or a maximal run of non-whitespace; the rest is what follows, with its
leading whitespace skipped. -/
def split_firstL (s : List Char) : List Char × List Char :=
  match s.dropWhile isspace with
  | [] => ([], [])
  | c :: t =>
    if c = '\'' || c = '"' then
      let first := t.takeWhile (fun d => d ≠ c)
      match t.dropWhile (fun d => d ≠ c) with
      | [] => (first, [])
      | _ :: u => (first, u.dropWhile isspace)
    else
      ((c :: t).takeWhile (fun d => !isspace d),
       ((c :: t).dropWhile (fun d => !isspace d)).dropWhile isspace)

/-- String-level `split_first`: `(verb, remainder)`. -/
def split_first (s : String) : String × String :=
  (⟨(split_firstL s.data).1⟩, ⟨(split_firstL s.data).2⟩)

/-- Value of a digit string (accumulator loop of C `atoi`). -/
def digitsValN (l : List Char) : Nat :=
  l.foldl (fun a c => a * 10 + (c.toNat - '0'.toNat)) 0

/-- C `atoi`: skip whitespace, optional sign, then leading digits (0 when
there are none).  Overflow is not modelled. -/
def atoiL (s : List Char) : Int :=
  match s.dropWhile isspace with
  | [] => 0
  | c :: t =>
    if c = '-' then -((digitsValN (t.takeWhile isdigit) : Int))
    else if c = '+' then (digitsValN (t.takeWhile isdigit) : Int)
    else (digitsValN ((c :: t).takeWhile isdigit) : Int)

/-- `sscanf(s, "%d", &n)` after a matched literal: skip whitespace, optional
sign, then at least one digit; `none` when no digit is found (sscanf
returns 0). -/
def scanInt (s : List Char) : Option Int :=
  match s.dropWhile isspace with
  | [] => none
  | c :: t =>
    if c = '-' then
      (if t.takeWhile isdigit = [] then none
       else some (-(digitsValN (t.takeWhile isdigit) : Int)))
    else if c = '+' then
      (if t.takeWhile isdigit = [] then none
       else some ((digitsValN (t.takeWhile isdigit) : Int)))
    else
      (if (c :: t).takeWhile isdigit = [] then none
       else some ((digitsValN ((c :: t).takeWhile isdigit) : Int)))

/-- The `APPREST` helper macro: append the remainder to the mapped text,
separated by a single space, skipping empty parts. -/
def apprest (mapped rest : String) : String :=
  if rest = "" then mapped
  else if mapped = "" then rest
  else mapped ++ " " ++ rest

/-- `strrchr(s, ' ')` heuristic of the `head` branch: the characters after
the last space, or the whole string when it has no space. -/
def after_last_space (s : List Char) : List Char :=
  if s.contains ' ' then (s.reverse.takeWhile (fun c => c ≠ ' ')).reverse
  else s

/-- Split a character list on a delimiter, keeping empty fields. -/
def split_on_char (d : Char) : List Char → List (List Char)
  | [] => [[]]
  | c :: t =>
    if c = d then [] :: split_on_char d t
    else
      match split_on_char d t with
      | [] => [[c]]
      | x :: xs => (c :: x) :: xs

/-- The token list `strtok(line, "|")` produces: maximal nonempty runs of
non-pipe characters. -/
def pipe_tokens (line : String) : List String :=
  ((split_on_char '|' line.data).map (fun l => (⟨l⟩ : String))).filter
    (fun t => t ≠ "")

/-- Last `strtok(temp, " ")` token of the `tail -n` branch. -/
def last_token (s : List Char) : Option (List Char) :=
  ((split_on_char ' ' s).filter (fun l => l ≠ [])).getLast?

/-- The `head` branch of the POSIX→Windows table (custard.c lines 167-187).
The dead `split_first(rest, sec, sec)` call in the source has no observable
effect and is not modelled. -/
def head_map (rest : String) : String :=
  match after_substr rest.data ("-n".data) with
  | some suf =>
    match scanInt suf with
    | some n =>
      "powershell -Command \"Get-Content " ++ (⟨after_last_space (trim rest).data⟩ : String)
        ++ " -TotalCount " ++ toString n ++ "\""
    | none =>
      if rest ≠ "" then
        "powershell -Command \"Get-Content " ++ rest ++ " -TotalCount 10\""
      else "more"
  | none =>
    if rest ≠ "" then
      "powershell -Command \"Get-Content " ++ rest ++ " -TotalCount 10\""
    else "more"

/-- Shared fallback of the `tail` branch (custard.c line 210). -/
def tail_default (rest : String) : String :=
  apprest "powershell -Command \"Get-Content " rest ++ " -Tail 10\""

/-- The `tail` branch of the POSIX→Windows table (custard.c lines 188-211). -/
def tail_map (rest : String) : String :=
  if contains_sub rest "-f" || contains_sub rest "-F" then
    "powershell -Command \"Get-Content "
      ++ trim ⟨replace_firstL (replace_firstL rest.data ("-f".data) []) ("-F".data) []⟩
      ++ " -Wait\""
  else
    match after_substr rest.data ("-n".data) with
    | some suf =>
      match scanInt suf with
      | some n =>
        match last_token rest.data with
        | some fn =>
          "powershell -Command \"Get-Content " ++ (⟨fn⟩ : String)
            ++ " -Tail " ++ toString n ++ "\""
        | none => tail_default rest
      | none => tail_default rest
    | none => tail_default rest

/-- The `taskkill` branch of the Windows→POSIX table (custard.c 339-354). -/
def taskkill_map (rest : String) : String :=
  match after_substr (trim rest).data ("/PID".data) with
  | some suf =>
    "kill -9 " ++ (⟨(suf.dropWhile isspace).takeWhile (fun c => !isspace c)⟩ : String)
  | none => apprest "rem cannot map taskkill: check args" rest

/-- The POSIX→Windows rule chain of `map_command` (custard.c lines 132-317),
branch by branch in source order.  `none` means no rule fired and the
caller uses the `bash -lc` fallback. -/
def map_posix_to_win (first_lc rest input : String) : Option String :=
  if first_lc = "pwd" then some "cd"
  else if first_lc = "ls" then
    (if contains_sub rest "-l" && contains_sub rest "-a" then some (apprest "dir /a /q" rest)
     else if contains_sub rest "-l" then some (apprest "dir" rest)
     else if contains_sub rest "-a" then some (apprest "dir /a" rest)
     else some (apprest "dir" rest))
  else if first_lc = "mkdir" then some (apprest "mkdir" rest)
  else if first_lc = "rmdir" then some (apprest "rmdir" rest)
  else if first_lc = "rm" then
    (if contains_sub rest "-r" || contains_sub rest "-rf" then
      some ("rmdir /s /q" ++
        (if replace_first (replace_first rest "-r" "") "-rf" "" = "" then ""
         else " " ++ replace_first (replace_first rest "-r" "") "-rf" ""))
     else some (apprest "del" rest))
  else if first_lc = "touch" then
    (if rest ≠ "" then some ("type nul > " ++ trim rest)
     else some "rem touch: missing filename")
  else if first_lc = "cp" then some (apprest "copy" rest)
  else if first_lc = "mv" then some (apprest "move" rest)
  else if first_lc = "cat" then some (apprest "type" rest)
  else if first_lc = "less" || first_lc = "more" then some (apprest "more" rest)
  else if first_lc = "head" then some (head_map rest)
  else if first_lc = "tail" then some (tail_map rest)
  else if first_lc = "chmod" then
    some (apprest "rem chmod not supported on Windows; use icacls or powershell Set-Acl" rest)
  else if first_lc = "chown" then
    some (apprest "rem chown not supported on Windows; use icacls" rest)
  else if first_lc = "whoami" then some "whoami"
  else if first_lc = "uname" then some (apprest "systeminfo" rest)
  else if first_lc = "hostname" then some "hostname"
  else if first_lc = "date" then some "date /t"
  else if first_lc = "uptime" then some "net statistics workstation"
  else if first_lc = "df" then some "wmic logicaldisk get caption,freespace,size"
  else if first_lc = "du" then
    (if trim rest ≠ "" then
      some ("powershell -Command \"(Get-ChildItem -Recurse " ++ trim rest
        ++ " | Measure-Object -Property Length -Sum).Sum\"")
     else some "rem du needs directory")
  else if first_lc = "free" then
    some "systeminfo | findstr /C:\"Total Physical Memory\" /C:\"Available\""
  else if first_lc = "top" || first_lc = "htop" then some "tasklist"
  else if first_lc = "ps" then
    (if contains_sub rest "aux" then some "tasklist" else some (apprest "tasklist" rest))
  else if first_lc = "kill" then
    (if contains_sub rest "-9" then
      some ("taskkill /PID " ++ trim (replace_first rest "-9" "") ++ " /F")
     else some ("taskkill /PID " ++ trim rest))
  else if first_lc = "jobs" || first_lc = "fg" || first_lc = "bg" then
    some (apprest "rem job control not supported on Windows; use powershell background jobs or task manager" rest)
  else if first_lc = "ping" then some (apprest "ping" rest)
  else if first_lc = "curl" then some (apprest "curl" rest)
  else if first_lc = "wget" then some (apprest "curl -O" rest)
  else if first_lc = "ifconfig" || (first_lc = "ip" && contains_sub rest "addr") then
    some "ipconfig /all"
  else if first_lc = "netstat" then some (apprest "netstat -ano" rest)
  else if first_lc = "ssh" then some (apprest "ssh" rest)
  else if first_lc = "scp" then some (apprest "scp" rest)
  else if first_lc = "sudo" then
    (if trim rest ≠ "" then some (trim rest) else some "rem sudo with no command")
  else if first_lc = "apt" || first_lc = "dnf" || first_lc = "pacman" then
    some (apprest "rem Package manager commands are not supported on Windows; consider using WSL or equivalent" rest)
  else if first_lc = "adduser" || first_lc = "passwd" || first_lc = "su" then
    some (apprest "rem User management must be done via Control Panel or net user on Windows" rest)
  else if first_lc = "who" || first_lc = "id" || first_lc = "groups" then
    some (apprest "whoami" rest)
  else if first_lc = "tar" then
    (if contains_sub rest "-czvf" || contains_sub rest "-czf" then some (apprest "tar" rest)
     else some (apprest "tar" rest))
  else if first_lc = "zip" then
    some ("powershell -Command \"Compress-Archive -Path"
      ++ (if rest ≠ "" then " " ++ rest else "") ++ "\"")
  else if first_lc = "unzip" then
    some ("powershell -Command \"Expand-Archive -Path"
      ++ (if rest ≠ "" then " " ++ rest else "") ++ "\"")
  else if first_lc = "history" then some "rem history shown by this terminal"
  else if first_lc = "clear" then some "cls"
  else if first_lc = "!!" then some "!!"
  else if sstarts_with first_lc "!" then some input
  else none

/-- The Windows→POSIX rule chain of `map_command` (custard.c lines 321-379),
branch by branch in source order.  `none` means no rule fired and the
caller returns the input verbatim.  The `Compress-Archive` comparison is
kept although it can never fire (the verb is lowercased first); `powershell`
passes its remainder through as written (the source uses it as a format
string, a latent format-string hazard not modelled). -/
def map_win_to_posix (first_lc rest input : String) : Option String :=
  if first_lc = "dir" then some (apprest "ls" rest)
  else if first_lc = "type" then some (apprest "cat" rest)
  else if first_lc = "copy" then some (apprest "cp" rest)
  else if first_lc = "move" then some (apprest "mv" rest)
  else if first_lc = "del" || first_lc = "erase" then some (apprest "rm" rest)
  else if first_lc = "rmdir" then some (apprest "rm -r" rest)
  else if first_lc = "mkdir" then some (apprest "mkdir" rest)
  else if first_lc = "cls" then some "clear"
  else if first_lc = "whoami" then some "whoami"
  else if first_lc = "systeminfo" then some (apprest "uname -a" rest)
  else if first_lc = "hostname" then some "hostname"
  else if first_lc = "date" then some "date"
  else if first_lc = "netstat" then some (apprest "netstat -tulnp" rest)
  else if first_lc = "tasklist" then some (apprest "ps aux" rest)
  else if first_lc = "taskkill" then some (taskkill_map rest)
  else if first_lc = "ipconfig" then some (apprest "ifconfig" rest)
  else if first_lc = "ping" then some (apprest "ping" rest)
  else if first_lc = "curl" then some (apprest "curl" rest)
  else if first_lc = "ssh" then some (apprest "ssh" rest)
  else if first_lc = "scp" then some (apprest "scp" rest)
  else if first_lc = "powershell" then some rest
  else if first_lc = "wmic" then some (apprest "df -h" rest)
  else if first_lc = "cls" then some "clear"
  else if first_lc = "tar" || first_lc = "Compress-Archive" then some (apprest "tar" rest)
  else if first_lc = "rem" then some "true"
  else if first_lc = "history" then some "history"
  else if first_lc = "start" then some (apprest "xdg-open" rest)
  else none

/-- `map_command` from the source: identity when source and host dialect
coincide; otherwise split the stage into verb and remainder, lowercase the
verb, and consult the direction's rule chain; the POSIX→Windows direction
falls back to wrapping the original input in `bash -lc "..."`, the
Windows→POSIX direction falls back to the original input verbatim. -/
def map_command (input : String) (source_is_windows host_is_windows : Bool) : String :=
  if source_is_windows = host_is_windows then input
  else
    let fr := split_first input
    let first_lc := lc_copy fr.1
    if !source_is_windows && host_is_windows then
      (map_posix_to_win first_lc fr.2 input).getD ("bash -lc \"" ++ input ++ "\"")
    else if source_is_windows && !host_is_windows then
      (map_win_to_posix first_lc fr.2 input).getD input
    else input

/-- `add_history` from the source, over the history list (oldest first):
empty input is ignored; below capacity the entry is appended; at capacity
the oldest entry (index 0) is evicted and the rest shift down one slot.
The C NULL case has no counterpart for Lean strings. -/
def add_history (hist : List String) (cmd : String) : List String :=
  if cmd = "" then hist
  else if hist.length < MAX_HISTORY then hist ++ [cmd]
  else hist.tail ++ [cmd]

/-- The history store reached by recording a sequence of lines in order,
starting from the empty session store. -/
def record_all (entries : List String) : List String :=
  entries.foldl add_history []

/-- `expand_bang` from the source: `!!` is the most recent entry ("" when
history is empty); `!` followed by a digit parses the number with `atoi`
and recalls `history[n-1]` when `0 < n <= hist_count`, "" otherwise;
everything else is returned unchanged. -/
def expand_bang (hist : List String) (cmd : String) : String :=
  if cmd = "!!" then
    match hist.getLast? with
    | some x => x
    | none => ""
  else
    match cmd.data with
    | '!' :: c :: _ =>
      if isdigit c then
        (if atoiL (cmd.data.drop 1) ≤ 0 ∨ (hist.length : Int) < atoiL (cmd.data.drop 1) then ""
         else hist.getD (atoiL (cmd.data.drop 1) - 1).toNat "")
      else cmd
    | _ => cmd

/-- Does the stage's second character exist and is it a digit?
(`isdigit(cmd[1])` in the source; a one-character string has `'\0'` there,
which is not a digit.) -/
def second_is_digit (s : String) : Bool :=
  match s.data with
  | _ :: c :: _ => isdigit c
  | _ => false

/-- Outcome of `handle_builtin_pipeline`: the stage was handled (help,
history, clear — returns 1), the whole process exits (exit/quit call
`exit(0)`), or the stage is not a built-in (returns 0). -/
inductive BuiltinResult where
  | handled
  | exitSession
  | notHandled
deriving DecidableEq

/-- `handle_builtin_pipeline` from the source, reduced to its control-flow
outcome (the printing of help text and history is I/O glue). -/
def handle_builtin_pipeline (cmd : String) : BuiltinResult :=
  let first_lc := lc_copy (split_first cmd).1
  if first_lc = "help" then BuiltinResult.handled
  else if first_lc = "exit" || first_lc = "quit" then BuiltinResult.exitSession
  else if first_lc = "history" then BuiltinResult.handled
  else if first_lc = "clear" then BuiltinResult.handled
  else BuiltinResult.notHandled

/-- The per-token loop of `translate_pipeline`: each token is trimmed,
empty tokens are skipped, built-in stages are intercepted (contributing
nothing), and the remaining stages are routed through `map_command`.
`none` models `exit`/`quit` terminating the process from inside the loop. -/
def translate_stages (toks : List String) (source_is_windows host_is_windows : Bool) :
    Option (List String) :=
  match toks with
  | [] => some []
  | t :: ts =>
    if trim t = "" then translate_stages ts source_is_windows host_is_windows
    else
      match handle_builtin_pipeline (trim t) with
      | BuiltinResult.exitSession => none
      | BuiltinResult.handled => translate_stages ts source_is_windows host_is_windows
      | BuiltinResult.notHandled =>
        (translate_stages ts source_is_windows host_is_windows).map
          (fun l => map_command (trim t) source_is_windows host_is_windows :: l)

/-- Join translated stages the way the source's `strncat` loop does:
`" | "` between consecutive contributed stages. -/
def join_sep (sep : String) : List String → String
  | [] => ""
  | [x] => x
  | x :: y :: xs => x ++ sep ++ join_sep sep (y :: xs)

/-- `translate_pipeline` from the source: split on `|`, process each stage,
rejoin with `" | "`.  `none` models the process exiting inside the loop. -/
def translate_pipeline (line : String) (source_is_windows host_is_windows : Bool) :
    Option String :=
  (translate_stages (pipe_tokens line) source_is_windows host_is_windows).map
    (join_sep " | ")

/-- The stages of a line that survive to the mapper: non-empty after
trimming and not intercepted by the built-in dispatcher. -/
def surviving (toks : List String) : List String :=
  match toks with
  | [] => []
  | t :: ts =>
    if trim t = "" then surviving ts
    else
      match handle_builtin_pipeline (trim t) with
      | BuiltinResult.notHandled => trim t :: surviving ts
      | _ => surviving ts

/-- The session loop's suppression test (custard.c line 598): a translated
result beginning with `"rem "`, `"true"` or `"echo "` is printed as a note
and not executed. -/
def session_skips (translated : String) : Bool :=
  sstarts_with translated "rem " || sstarts_with translated "true"
    || sstarts_with translated "echo "

end Custard

namespace Custard

/-! ## Rule-chain reduction lemmas

Each lemma evaluates the closed verb comparisons at the head of the rule
chain, exposing a single branch for an abstract remainder. -/

theorem map_p2w_rm (rest input : String) :
    map_posix_to_win "rm" rest input =
      (if contains_sub rest "-r" || contains_sub rest "-rf" then
        some ("rmdir /s /q" ++
          (if replace_first (replace_first rest "-r" "") "-rf" "" = "" then ""
           else " " ++ replace_first (replace_first rest "-r" "") "-rf" ""))
       else some (apprest "del" rest)) := rfl

theorem map_p2w_touch (rest input : String) :
    map_posix_to_win "touch" rest input =
      (if rest ≠ "" then some ("type nul > " ++ trim rest)
       else some "rem touch: missing filename") := rfl

theorem map_w2p_rem (rest input : String) :
    map_win_to_posix "rem" rest input = some "true" := rfl

/-- Evaluating `map_command` in the POSIX→Windows direction through a known
split of the input. -/
theorem map_command_p2w (input f rest : String)
    (hsplit : split_first input = (f, rest)) :
    map_command input false true =
      (map_posix_to_win (lc_copy f) rest input).getD ("bash -lc \"" ++ input ++ "\"") := by
  simp only [map_command, hsplit, Bool.not_false, Bool.true_and, if_true]
  simp

/-- Evaluating `map_command` in the Windows→POSIX direction through a known
split of the input. -/
theorem map_command_w2p (input f rest : String)
    (hsplit : split_first input = (f, rest)) :
    map_command input true false =
      (map_win_to_posix (lc_copy f) rest input).getD input := by
  simp only [map_command, hsplit]
  simp

end Custard

namespace Custard

/-! ## Claim C1 -/

/-- C1: for every input line, when the source dialect equals the host
dialect, `map_command` returns the original stage text unchanged (the
identity branch fires before any rule lookup). -/
theorem c1_identity_same_dialect (input : String) (b : Bool) :
    map_command input b b = input := by
  simp [map_command]

/-! ## Claim C2 -/

/-- C2 counterexample: `grep foo` matches no rule of either direction's
table, yet the POSIX→Windows translation is the `bash -lc` wrapper, not
the original stage text verbatim. -/
theorem c2_counterexample :
    map_posix_to_win (lc_copy (split_first "grep foo").1) (split_first "grep foo").2
      "grep foo" = none ∧
    map_win_to_posix (lc_copy (split_first "grep foo").1) (split_first "grep foo").2
      "grep foo" = none ∧
    map_command "grep foo" false true = "bash -lc \"grep foo\"" ∧
    map_command "grep foo" false true ≠ "grep foo" := by
  decide

/-- C2 amended: for a stage whose (verb, remainder) pair fires no rule in
either direction's table, the Windows→POSIX translation returns the
original stage text verbatim, while the POSIX→Windows translation wraps
the original stage text as `bash -lc "<input>"`; in both directions the
result is never empty (for a non-empty stage) and the function is total,
so no null result exists. -/
theorem c2_amended_fallback (input f rest : String)
    (hsplit : split_first input = (f, rest))
    (h1 : map_posix_to_win (lc_copy f) rest input = none)
    (h2 : map_win_to_posix (lc_copy f) rest input = none) :
    map_command input false true = "bash -lc \"" ++ input ++ "\"" ∧
    map_command input true false = input ∧
    map_command input false true ≠ "" ∧
    (input ≠ "" → map_command input true false ≠ "") := by
  have e1 := map_command_p2w input f rest hsplit
  have e2 := map_command_w2p input f rest hsplit
  rw [h1] at e1
  rw [h2] at e2
  simp only [Option.getD_none] at e1 e2
  refine ⟨e1, e2, ?_, fun hne => by rw [e2]; exact hne⟩
  rw [e1]
  obtain ⟨l⟩ := input
  intro hcontra
  exact List.noConfusion (congrArg String.data hcontra)

/-- C2 witness input. -/
theorem c2_amended_fallback_witness :
    map_command "grep foo" false true = "bash -lc \"" ++ "grep foo" ++ "\"" ∧
    map_command "grep foo" true false = "grep foo" ∧
    map_command "grep foo" false true ≠ "" ∧
    (("grep foo" : String) ≠ "" → map_command "grep foo" true false ≠ "") :=
  c2_amended_fallback "grep foo" "grep" "foo" (by decide) (by decide) (by decide)

end Custard

namespace Custard

/-! ## Claim C3 -/

/-- C3 counterexample: in `"ls -la"` the remainder is `"-la"`, and the
code's flag detection is plain `strstr` substring search, so `-a` is NOT
detected (it is not a substring of `"-la"`); the first stage therefore
maps to `dir -la`, not `dir /a /q -la`, and the second stage is wrapped
in `bash -lc`, not passed through unchanged. -/
theorem c3_counterexample :
    contains_sub "-la" "-a" = false ∧
    translate_pipeline "ls -la | grep foo" false true ≠ some "dir /a /q -la | grep foo" ∧
    translate_pipeline "ls -la | grep foo" false true ≠ some "dir /a /q | grep foo" := by
  decide

/-- C3 amended: with source POSIX and host Windows, translating
`"ls -la | grep foo"` yields a first stage `dir -la` (only `-l` is found
by substring search in `"-la"`; `-a` is not a substring, so the `dir /a /q`
rule does not fire), and a second, unmapped stage wrapped as
`bash -lc "grep foo"`, the two joined with `" | "`. -/
theorem c3_amended_pipeline :
    map_command "ls -la" false true = "dir -la" ∧
    translate_pipeline "ls -la | grep foo" false true =
      some ("dir -la" ++ " | " ++ "bash -lc \"grep foo\"") := by
  decide

/-! ## Claim C4 -/

/-- C4 counterexample: for the stage `rm -rf tmp`, the code removes only
the first occurrence of `-r` from the remainder (the subsequent
`replace_first(t, "-rf", "")` no longer finds `-rf`), leaving a stray `f`:
the result is `rmdir /s /q f tmp`, not `rmdir /s /q tmp` (nor the
space-preserving `rmdir /s /q  tmp`). -/
theorem c4_counterexample :
    map_command "rm -rf tmp" false true = "rmdir /s /q f tmp" ∧
    map_command "rm -rf tmp" false true ≠ "rmdir /s /q tmp" ∧
    map_command "rm -rf tmp" false true ≠ "rmdir /s /q  tmp" := by
  decide

/-- C4 amended: with source POSIX and host Windows, a `rm` stage whose
remainder contains `-r` (which includes every remainder containing `-rf`)
yields `rmdir /s /q` followed by the remainder with only the FIRST
occurrence of the two characters `-r` removed (so `-rf` leaves a stray
`f`); a `rm` stage without `-r` yields `del <rest>`. -/
theorem c4_rm_mapping (input f rest : String)
    (hsplit : split_first input = (f, rest)) (hlc : lc_copy f = "rm") :
    ((contains_sub rest "-r" || contains_sub rest "-rf") = true →
      map_command input false true =
        "rmdir /s /q" ++
          (if replace_first (replace_first rest "-r" "") "-rf" "" = "" then ""
           else " " ++ replace_first (replace_first rest "-r" "") "-rf" "")) ∧
    ((contains_sub rest "-r" || contains_sub rest "-rf") = false →
      map_command input false true = apprest "del" rest) := by
  have e := map_command_p2w input f rest hsplit
  rw [hlc, map_p2w_rm] at e
  constructor
  · intro hr
    rw [hr] at e
    simpa using e
  · intro hr
    rw [hr] at e
    simpa using e

/-- C4 witness inputs: one flagged stage, one plain stage. -/
theorem c4_rm_mapping_witness :
    map_command "rm -r tmp" false true = "rmdir /s /q  tmp" ∧
    map_command "rm file.txt" false true = "del file.txt" :=
  ⟨((c4_rm_mapping "rm -r tmp" "rm" "-r tmp" (by decide) (by decide)).1
      (by decide)).trans (by decide),
   ((c4_rm_mapping "rm file.txt" "rm" "file.txt" (by decide) (by decide)).2
      (by decide)).trans (by decide)⟩

/-! ## Claim C5 -/

/-- C5: with source POSIX and host Windows, a `touch` stage with a
non-empty remainder yields `type nul > <file>` (the file being the trimmed
remainder); with an empty remainder it yields the inline note
`rem touch: missing filename`, which contains `missing filename` and which
the session loop's `rem ` prefix test suppresses from execution. -/
theorem c5_touch_mapping (input f rest : String)
    (hsplit : split_first input = (f, rest)) (hlc : lc_copy f = "touch") :
    (rest ≠ "" → map_command input false true = "type nul > " ++ trim rest) ∧
    (rest = "" →
      map_command input false true = "rem touch: missing filename" ∧
      contains_sub (map_command input false true) "missing filename" = true ∧
      session_skips (map_command input false true) = true) := by
  have e := map_command_p2w input f rest hsplit
  rw [hlc, map_p2w_touch] at e
  constructor
  · intro hne
    rw [if_pos hne] at e
    simpa using e
  · intro heq
    subst heq
    rw [if_neg (by simp)] at e
    simp only [Option.getD_some] at e
    refine ⟨e, ?_, ?_⟩ <;> rw [e] <;> decide

/-- C5 witness inputs: a `touch` stage with a filename and one without. -/
theorem c5_touch_mapping_witness :
    map_command "touch notes.txt" false true = "type nul > notes.txt" ∧
    map_command "touch" false true = "rem touch: missing filename" ∧
    session_skips (map_command "touch" false true) = true :=
  ⟨((c5_touch_mapping "touch notes.txt" "touch" "notes.txt" (by decide)
      (by decide)).1 (by decide)).trans (by decide),
   ((c5_touch_mapping "touch" "touch" "" (by decide) (by decide)).2 rfl).1,
   ((c5_touch_mapping "touch" "touch" "" (by decide) (by decide)).2 rfl).2.2⟩

/-! ## Claim C9 -/

/-- C9: with source Windows and host POSIX, a stage whose verb is `rem`
maps to the no-op marker `true`, which the session loop's suppression test
catches (only an informational note is printed, nothing is executed); in
particular the whole line `"rem this is a note"` translates to `true`. -/
theorem c9_rem_noop (input f rest : String)
    (hsplit : split_first input = (f, rest)) (hlc : lc_copy f = "rem") :
    map_command input true false = "true" ∧
    session_skips "true" = true ∧
    translate_pipeline "rem this is a note" true false = some "true" := by
  have e := map_command_w2p input f rest hsplit
  rw [hlc, map_w2p_rem] at e
  simp only [Option.getD_some] at e
  exact ⟨e, by decide, by decide⟩

/-- C9 witness input. -/
theorem c9_rem_noop_witness :
    map_command "rem this is a note" true false = "true" ∧
    session_skips "true" = true ∧
    translate_pipeline "rem this is a note" true false = some "true" :=
  c9_rem_noop "rem this is a note" "rem" "this is a note" (by decide) (by decide)

/-! ## Claim C10 -/

/-- C10: `expand_bang` returns its input unchanged for any string that
starts with `!` but is neither exactly `!!` nor `!` followed immediately
by a digit — such input is neither treated as a history reference nor
resolved to an empty result. -/
theorem c10_bang_passthrough (hist : List String) (cmd : String)
    (h1 : sstarts_with cmd "!" = true) (h2 : cmd ≠ "!!")
    (h3 : second_is_digit cmd = false) :
    expand_bang hist cmd = cmd := by
  unfold expand_bang
  rw [if_neg h2]
  unfold second_is_digit at h3
  split
  · rename_i c rest heq
    rw [heq] at h3
    have h4 : isdigit c = false := h3
    rw [h4]
    simp
  · rfl

/-- C10 witness input. -/
theorem c10_bang_passthrough_witness :
    expand_bang ["ls -l", "pwd"] "!abc" = "!abc" :=
  c10_bang_passthrough ["ls -l", "pwd"] "!abc" (by decide) (by decide) (by decide)

end Custard

namespace Custard

/-! ## Claim C6 -/

/-- A digit character is not whitespace and is not a sign character. -/
theorem isdigit_facts (c : Char) (h : isdigit c = true) :
    isspace c = false ∧ c ≠ '-' ∧ c ≠ '+' := by
  unfold isdigit at h
  simp only [Bool.or_eq_true, decide_eq_true_eq, or_assoc] at h
  rcases h with rfl | rfl | rfl | rfl | rfl | rfl | rfl | rfl | rfl | rfl <;>
    exact ⟨by decide, by decide, by decide⟩

/-- `takeWhile` keeps a list all of whose elements satisfy the predicate. -/
theorem takeWhile_all {α : Type} {p : α → Bool} (l : List α)
    (h : ∀ c ∈ l, p c = true) : l.takeWhile p = l := by
  induction l with
  | nil => rfl
  | cons c t ih =>
    rw [List.takeWhile_cons, h c (List.mem_cons_self c t)]
    simp [ih (fun d hd => h d (List.mem_cons_of_mem c hd))]

/-- On a non-empty all-digit string, C `atoi` returns the digits' value. -/
theorem atoiL_digits (c : Char) (t : List Char)
    (h2 : ∀ d ∈ c :: t, isdigit d = true) :
    atoiL (c :: t) = (digitsValN (c :: t) : Int) := by
  have hc := h2 c (List.mem_cons_self c t)
  obtain ⟨hsp, hm, hp⟩ := isdigit_facts c hc
  unfold atoiL
  rw [List.dropWhile_cons, hsp]
  simp only [Bool.false_eq_true, if_false]
  rw [if_neg hm, if_neg hp, takeWhile_all _ h2]

/-- Reduction of `expand_bang` on a `!`-digit stage. -/
theorem expand_bang_digit (hist : List String) (c : Char) (t : List Char)
    (hne : (⟨'!' :: c :: t⟩ : String) ≠ "!!") (hc : isdigit c = true) :
    expand_bang hist ⟨'!' :: c :: t⟩ =
      (if atoiL (c :: t) ≤ 0 ∨ (hist.length : Int) < atoiL (c :: t) then ""
       else hist.getD (atoiL (c :: t) - 1).toNat "") := by
  unfold expand_bang
  rw [if_neg hne]
  split
  · rename_i c' rest' heq
    have heq' : c = c' ∧ t = rest' := by
      have h3 : '!' :: c :: t = '!' :: c' :: rest' := heq
      simpa using h3
    obtain ⟨rfl, rfl⟩ := heq'
    rw [hc]
    simp
  · rename_i hno
    exact absurd rfl (hno c t)

/-- C6: `!!` recalls the most recently recorded entry ("" when history is
empty); `!<digits>` with value `n` recalls the entry currently at position
`n-1` exactly when `1 ≤ n ≤ length`, and resolves to the empty string
otherwise — `expand_bang` is total, so the session never aborts. -/
theorem c6_bang_resolution (hist : List String) (ds : List Char)
    (h1 : ds ≠ []) (h2 : ∀ c ∈ ds, isdigit c = true) :
    expand_bang hist "!!" = (hist.getLast?).getD "" ∧
    expand_bang hist ⟨'!' :: ds⟩ =
      (if 1 ≤ digitsValN ds ∧ digitsValN ds ≤ hist.length
       then hist.getD (digitsValN ds - 1) "" else "") := by
  constructor
  · unfold expand_bang
    rw [if_pos rfl]
    cases hist.getLast? <;> rfl
  · obtain ⟨c, t, rfl⟩ := List.exists_cons_of_ne_nil h1
    have hc := h2 c (List.mem_cons_self c t)
    have hne : (⟨'!' :: c :: t⟩ : String) ≠ "!!" := by
      intro hcontra
      have h3 : '!' :: c :: t = ['!', '!'] := congrArg String.data hcontra
      simp only [List.cons.injEq, true_and] at h3
      obtain ⟨rfl, rfl⟩ := h3
      exact absurd hc (by decide)
    rw [expand_bang_digit hist c t hne hc, atoiL_digits c t h2]
    by_cases hcond : 1 ≤ digitsValN (c :: t) ∧ digitsValN (c :: t) ≤ hist.length
    · rw [if_pos hcond, if_neg (by omega)]
      have hidx : ((digitsValN (c :: t) : Int) - 1).toNat = digitsValN (c :: t) - 1 := by
        omega
      rw [hidx]
    · rw [if_neg hcond, if_pos (by omega)]

/-- C6 witness: the spec's own example history. -/
theorem c6_bang_resolution_witness :
    expand_bang ["ls -l", "pwd"] "!!" = "pwd" ∧
    expand_bang ["ls -l", "pwd"] "!1" = "ls -l" ∧
    expand_bang ["ls -l", "pwd"] "!5" = "" :=
  ⟨((c6_bang_resolution ["ls -l", "pwd"] ['1'] (by decide) (by decide)).1).trans
      (by decide),
   ((c6_bang_resolution ["ls -l", "pwd"] ['1'] (by decide) (by decide)).2).trans
      (by decide),
   ((c6_bang_resolution ["ls -l", "pwd"] ['5'] (by decide) (by decide)).2).trans
      (by decide)⟩

end Custard

namespace Custard

/-! ## Claim C7 -/

/-- When the per-token loop completes (no `exit`/`quit` stage), the
contributed list is exactly the surviving stages, each routed through
`map_command`. -/
theorem translate_stages_spec (toks : List String) (sw hw : Bool) (L : List String)
    (h : translate_stages toks sw hw = some L) :
    L = (surviving toks).map (fun t => map_command t sw hw) := by
  induction toks generalizing L with
  | nil =>
    simp only [translate_stages, Option.some.injEq] at h
    subst h
    rfl
  | cons t ts ih =>
    rw [translate_stages] at h
    rw [surviving]
    by_cases htrim : trim t = ""
    · rw [if_pos htrim] at h ⊢
      exact ih L h
    · rw [if_neg htrim] at h ⊢
      cases hb : handle_builtin_pipeline (trim t) with
      | exitSession => rw [hb] at h; exact absurd h (by simp)
      | handled => rw [hb] at h; exact ih L h
      | notHandled =>
        rw [hb] at h
        obtain ⟨L', hL', rfl⟩ := Option.map_eq_some'.mp h
        rw [List.map_cons]
        rw [ih L' hL']

/-- C7: when the loop completes, the translated pipeline is the surviving
stages' translations joined with `" | "`; the number of joined segments
equals the number of input stages that are non-empty after trimming and
not intercepted by the built-in dispatcher; and when no stage survives
the translated pipeline is the empty string. -/
theorem c7_stage_count (line : String) (sw hw : Bool) (L : List String)
    (h : translate_stages (pipe_tokens line) sw hw = some L) :
    translate_pipeline line sw hw = some (join_sep " | " L) ∧
    L.length = (surviving (pipe_tokens line)).length ∧
    (surviving (pipe_tokens line) = [] → translate_pipeline line sw hw = some "") := by
  have hL := translate_stages_spec (pipe_tokens line) sw hw L h
  refine ⟨by rw [translate_pipeline, h]; rfl, by rw [hL, List.length_map], ?_⟩
  intro hs
  rw [translate_pipeline, h, hL, hs]
  rfl

/-- C7 witness: a three-stage line whose middle stage is the intercepted
built-in `history`; two stages survive and two segments are joined. -/
theorem c7_stage_count_witness :
    translate_pipeline "ls -la | history | grep foo" false true =
      some (join_sep " | " ["dir -la", "bash -lc \"grep foo\""]) ∧
    (["dir -la", "bash -lc \"grep foo\""] : List String).length =
      (surviving (pipe_tokens "ls -la | history | grep foo")).length ∧
    (surviving (pipe_tokens "ls -la | history | grep foo") = [] →
      translate_pipeline "ls -la | history | grep foo" false true = some "") :=
  c7_stage_count "ls -la | history | grep foo" false true
    ["dir -la", "bash -lc \"grep foo\""] (by decide)

/-! ## Claim C8 -/

/-- The history fold keeps the last `MAX_HISTORY` recorded entries: from a
store holding at most `MAX_HISTORY` entries, recording a sequence of
non-empty lines leaves exactly the tail of the combined sequence. -/
theorem add_history_cons (acc : List String) (c : String) (hc : c ≠ "") :
    add_history acc c =
      if acc.length < MAX_HISTORY then acc ++ [c] else acc.tail ++ [c] := by
  unfold add_history
  rw [if_neg hc]

theorem foldl_add_history (l : List String) : ∀ acc : List String,
    acc.length ≤ MAX_HISTORY → (∀ c ∈ l, c ≠ "") →
    l.foldl add_history acc = (acc ++ l).drop (acc.length + l.length - MAX_HISTORY) := by
  induction l with
  | nil =>
    intro acc hacc _
    simp only [List.foldl_nil, List.append_nil, List.length_nil, Nat.add_zero]
    rw [Nat.sub_eq_zero_of_le hacc, List.drop_zero]
  | cons c t ih =>
    intro acc hacc hl
    have hc : c ≠ "" := hl c (List.mem_cons_self c t)
    have hl' : ∀ x ∈ t, x ≠ "" := fun x hx => hl x (List.mem_cons_of_mem c hx)
    rw [List.foldl_cons, add_history_cons acc c hc]
    by_cases hlt : acc.length < MAX_HISTORY
    · rw [if_pos hlt]
      have hlen1 : (acc ++ [c]).length ≤ MAX_HISTORY := by
        simp only [List.length_append, List.length_cons, List.length_nil]
        omega
      rw [ih (acc ++ [c]) hlen1 hl']
      rw [List.append_assoc, List.singleton_append]
      have harith : (acc ++ [c]).length + t.length - MAX_HISTORY
          = acc.length + (c :: t).length - MAX_HISTORY := by
        simp only [List.length_append, List.length_cons, List.length_nil]
        omega
      rw [harith]
    · rw [if_neg hlt]
      have hlen : acc.length = MAX_HISTORY := Nat.le_antisymm hacc (Nat.le_of_not_lt hlt)
      have hap : acc ≠ [] := by
        intro h0
        rw [h0] at hlen
        simp [MAX_HISTORY] at hlen
      obtain ⟨a, as, rfl⟩ := List.exists_cons_of_ne_nil hap
      have hlen' : as.length + 1 = MAX_HISTORY := by simpa using hlen
      have hlen2 : ((a :: as).tail ++ [c]).length ≤ MAX_HISTORY := by
        simp only [List.tail_cons, List.length_append, List.length_cons, List.length_nil]
        omega
      rw [ih ((a :: as).tail ++ [c]) hlen2 hl']
      simp only [List.tail_cons]
      rw [List.append_assoc, List.singleton_append]
      have h1 : (as ++ [c]).length + t.length - MAX_HISTORY = t.length := by
        simp only [List.length_append, List.length_cons, List.length_nil]
        omega
      have h2 : (a :: as).length + (c :: t).length - MAX_HISTORY = t.length + 1 := by
        simp only [List.length_cons]
        omega
      rw [h1, h2, List.cons_append, List.drop_succ_cons]

/-- Recording any all-non-empty sequence from the empty store keeps its
last `MAX_HISTORY` entries. -/
theorem record_all_eq (entries : List String) (h : ∀ c ∈ entries, c ≠ "") :
    record_all entries = entries.drop (entries.length - MAX_HISTORY) := by
  unfold record_all
  rw [foldl_add_history entries [] (by simp) h]
  simp

/-- C8: after recording `MAX_HISTORY + k` non-empty entries the store
holds exactly `MAX_HISTORY` entries; index 1 (slot 0) then holds the
`(k+1)`-th recorded entry — the oldest entries were evicted and the
survivors shifted down; and recording an empty line leaves the store
unchanged. -/
theorem c8_history_bounded (entries : List String) (k : Nat)
    (h1 : ∀ c ∈ entries, c ≠ "") (h2 : entries.length = MAX_HISTORY + k) :
    (record_all entries).length = MAX_HISTORY ∧
    (record_all entries).getD 0 "" = entries.getD k "" ∧
    add_history (record_all entries) "" = record_all entries := by
  have he := record_all_eq entries h1
  have hk : entries.length - MAX_HISTORY = k := by omega
  rw [hk] at he
  refine ⟨?_, ?_, by simp [add_history]⟩
  · rw [he, List.length_drop]
    omega
  · rw [he]
    simp [List.getD_eq_getElem?_getD, List.getElem?_drop]

/-- C8 witness entries: capacity plus two more. -/
def c8_entries : List String := List.replicate MAX_HISTORY "a" ++ ["b", "c"]

/-- C8 witness: recording 1002 non-empty entries. -/
theorem c8_history_bounded_witness :
    (record_all c8_entries).length = MAX_HISTORY ∧
    (record_all c8_entries).getD 0 "" = c8_entries.getD 2 "" ∧
    add_history (record_all c8_entries) "" = record_all c8_entries :=
  c8_history_bounded c8_entries 2
    (by
      intro c hc
      simp only [c8_entries, List.mem_append, List.mem_replicate, List.mem_cons,
        List.not_mem_nil, or_false] at hc
      rcases hc with ⟨-, rfl⟩ | rfl | rfl <;> decide)
    (by simp [c8_entries])

end Custard
